import Mathlib

/-
Verification of the "Cart Builder" shopping-cart application.

The repository contains three near-duplicate versions of the same React
component:
  * src/src/App.jsx          (header comment "Cart Builder — v11")
  * src/unnamed/part_001     (header comment "Cart Builder — v14")
  * src/unnamed/part_000     (header comment "Cart Builder — v17")

All domain logic lives in the component's handlers and in the utility
functions at the bottom of each file.  The three versions share `num`,
`parseIntSafe`, `parseFloatSafe`, `fmtKVND`, `onlyDigits`, `onlyDecimal`,
the totals computation, `removeItem`, `requestClearAll`, `respondClearAll`
and `clearForm` verbatim.  They differ in `addOrSave` (v11 divides the
Amount field by the quantity to obtain the unit price, v14/v17 store the
Amount field directly as the unit price), in `onRowClick` (v11 shows the
line amount in the panel, v14/v17 show the unit price) and in two
validation message texts.  The v11-specific definitions live in namespace
`V11` below, the definitions shared by v14 and v17 in namespace `V14`.

JavaScript numbers are modelled as exact rationals together with explicit
NaN / ±Infinity markers (`JsNum`); the spec itself describes `unitPrice`
as a "real number", and none of the verified properties depends on binary
floating-point rounding.  Host primitives (`Number(...)`, `String(...)`,
`JSON.parse`, `localStorage`) are modelled by explicit Lean functions on
the fragment of inputs the program and the results below exercise; each
model carries a comment stating its scope.
-/

/-- A JavaScript number: either a finite value (modelled exactly as a
rational) or one of the non-finite values `NaN`, `Infinity`, `-Infinity`. -/
inductive JsNum where
  | nan
  | posInf
  | negInf
  | fin (val : ℚ)
deriving DecidableEq, Repr

/-- `num(v)` from the source (identical in all three versions):
`Number(v)` followed by `Number.isFinite(x) ? x : 0`.  Item fields are
modelled as `Option JsNum`; a missing field (`undefined`) converts to
`NaN`, hence to `0`, and the non-finite values also collapse to `0`. -/
def num (v : Option JsNum) : ℚ :=
  match v with
  | some (JsNum.fin x) => x
  | _ => 0

/-- Value of a list of decimal digit characters read in base 10
(the value `Number` gives a string of digits). -/
def digitsVal (l : List Char) : ℕ :=
  l.foldl (fun a c => 10 * a + (c.toNat - 48)) 0

/-- Both ends of a character list stripped of whitespace, as
`String.prototype.trim` does.  (JavaScript also strips some exotic
Unicode space characters; the program only ever trims ordinary ASCII
whitespace.) -/
def trimList (l : List Char) : List Char :=
  ((l.dropWhile Char.isWhitespace).reverse.dropWhile Char.isWhitespace).reverse

/-- `String.prototype.trim`. -/
def jsTrim (s : String) : String :=
  String.mk (trimList s.toList)

/-- Decimal-literal body of the JavaScript `Number(string)` conversion:
digits, optionally followed by a point and further digits, with at least
one digit present (`"5"`, `"5."`, `".5"`, `"10.5"`...).  `none` means the
text is not such a literal. -/
def parseDecCore (l : List Char) : Option ℚ :=
  let intPart := l.takeWhile Char.isDigit
  let rest := l.dropWhile Char.isDigit
  match rest with
  | [] =>
      if intPart = [] then none
      else some ((digitsVal intPart : ℚ))
  | '.' :: frac =>
      if frac.all Char.isDigit ∧ (intPart ≠ [] ∨ frac ≠ []) then
        some ((digitsVal intPart : ℚ) + (digitsVal frac : ℚ) / (10 : ℚ) ^ frac.length)
      else none
  | _ => none

/-- Model of the JavaScript `Number(string)` conversion on the fragment
the program exercises: surrounding whitespace is ignored, the empty (or
all-whitespace) string converts to `0`, an optional sign precedes a
decimal literal, and anything else is `NaN`.  (Exponent, hexadecimal,
binary, octal and `Infinity` forms lie outside the modelled fragment and
are mapped to `NaN`; no result below evaluates the model on them.) -/
def jsStrToNum (s : String) : JsNum :=
  match trimList s.toList with
  | [] => JsNum.fin 0
  | '-' :: r =>
      match parseDecCore r with
      | some q => JsNum.fin (-q)
      | none => JsNum.nan
  | '+' :: r =>
      match parseDecCore r with
      | some q => JsNum.fin q
      | none => JsNum.nan
  | t =>
      match parseDecCore t with
      | some q => JsNum.fin q
      | none => JsNum.nan

/-- `parseIntSafe` from the source: `Number(String(s).replace(/\D+/g, ""))`
then `Number.isFinite(n) ? Math.trunc(n) : 0`.  After stripping the
non-digits the string is empty (`Number("") = 0`) or a digit string whose
`Number` value is its base-10 reading, already an integer, so `Math.trunc`
is the identity and the `isFinite` guard always passes in the exact
model. -/
def parseIntSafe (s : String) : ℚ :=
  (digitsVal (s.toList.filter Char.isDigit) : ℚ)

/-- First `','` of a character list replaced by `'.'`:
`String.prototype.replace` with a *string* pattern (`s.replace(",", ".")`)
rewrites only the first occurrence. -/
def replaceFirstComma : List Char → List Char
  | [] => []
  | c :: rest => if c = ',' then '.' :: rest else c :: replaceFirstComma rest

/-- `parseFloatSafe` from the source: first `','` normalized to `'.'`,
then `Number(cleaned)`, with non-finite results coerced to `0`. -/
def parseFloatSafe (s : String) : ℚ :=
  match jsStrToNum (String.mk (replaceFirstComma s.toList)) with
  | JsNum.fin x => x
  | _ => 0

/-- Fractional digit string of `m` padded with leading zeros to width `k`. -/
def zeroPad (k : Nat) (m : Nat) : String :=
  let ds := m.repr
  String.mk (List.replicate (k - ds.length) '0') ++ ds

/-- Least number of decimal digits after the point needed to write `x`
exactly — the least `k` with `x.den ∣ 10^k` (`x` is in reduced form) —
when at most 30 digits suffice. -/
def decDigits (x : ℚ) : Option Nat :=
  (List.range 31).find? fun k => 10 ^ k % x.den == 0

/-- Decimal rendering of a non-negative rational with a finite decimal
expansion, shortest form (no trailing zeros), as `String(number)` prints
such values in JavaScript.  In the fractional case `m` is the integer
`x · 10^(k+1)`, computed as `x.num · (10^(k+1) / x.den)`, which is exact
because `x.den` divides `10^(k+1)`. -/
def jsNumToStringCore (x : ℚ) : String :=
  match decDigits x with
  | some 0 => x.num.toNat.repr
  | some (k + 1) =>
      let m := x.num.toNat * (10 ^ (k + 1) / x.den)
      (m / 10 ^ (k + 1)).repr ++ "." ++ zeroPad (k + 1) (m % 10 ^ (k + 1))
  | none => "?"

/-- Model of the JavaScript `String(number)` conversion on finite numbers
with a finite decimal expansion of at most 30 digits; numbers outside that
fragment (which JavaScript would print in rounded binary-double form) are
mapped to a placeholder and are never produced by the results below. -/
def jsNumToString (x : ℚ) : String :=
  if x < 0 then "-" ++ jsNumToStringCore (-x) else jsNumToStringCore x

/-- `Number.prototype.toFixed(1)`: the sign is extracted first, then the
magnitude is written with exactly one fractional digit, rounding to the
nearest multiple of 1/10 with ties taken upward ("pick the larger n"),
i.e. `n = floor(10x + 1/2)` — written out on the numerator and denominator
of `x = x.num / x.den` as `n = (20·x.num + x.den) div (2·x.den)`, which
for the non-negative `x` this receives is exactly that floor. -/
def toFixed1Core (x : ℚ) : String :=
  let n := ((20 * x.num + (x.den : ℤ)) / (2 * (x.den : ℤ))).toNat
  (n / 10).repr ++ "." ++ (n % 10).repr

/-- `Number.prototype.toFixed(1)` on a finite (exact-rational) number. -/
def toFixed1 (x : ℚ) : String :=
  if x < 0 then "-" ++ toFixed1Core (-x) else toFixed1Core x

/-- `fmtKVND` from the source: a template string gluing `num(v).toFixed(1)`
to the suffix `" k VND"`.  `num` is the identity on the (always finite)
rationals of the model. -/
def fmtKVND (v : ℚ) : String :=
  toFixed1 v ++ " k VND"

/-- One line item as the program stores it: `{ id, name, qty, unitPrice }`.
The numeric fields are raw JavaScript values because items loaded from
storage may carry anything; `num` is applied at every use site, exactly as
in the source. -/
structure LineItem where
  id : String
  name : String
  qty : Option JsNum
  unitPrice : Option JsNum
deriving DecidableEq, Repr

/-- Result of the totals computation: `{ subtotal, totalQty }`. -/
structure Totals where
  subtotal : ℚ
  totalQty : ℚ
deriving DecidableEq, Repr

/-- The `totals` memo (identical in all three versions):
two `reduce`s over the item list with initial accumulator `0`. -/
def computeTotals (items : List LineItem) : Totals :=
  { subtotal := items.foldl (fun s it => s + num it.qty * num it.unitPrice) 0
    totalQty := items.foldl (fun s it => s + num it.qty) 0 }

/-- The component state: the six `useState` hooks of `App`. -/
structure AppState where
  items : List LineItem
  name : String
  qtyStr : String
  amountStr : String
  errors : List String
  editingId : Option String
  showConfirm : Bool
deriving DecidableEq, Repr

/-- `clearForm` (identical in all versions): resets edit mode, the three
text buffers and the error list.  (The v17 file additionally refocuses the
name input — a presentation effect with no state content.) -/
def clearForm (st : AppState) : AppState :=
  { st with editingId := none, name := "", qtyStr := "", amountStr := "", errors := [] }

/-- JavaScript truthiness of the `editingId` value (a string or `null`):
`null` and the empty string are falsy, every other string is truthy. -/
def isTruthy (o : Option String) : Bool :=
  match o with
  | none => false
  | some s => s != ""

/-- `removeItem(id)` (identical in all versions): filters the list by
`it.id !== id` and, when the removed id is the one being edited
(`editingId === id`, strict equality, never true for `null`), clears the
form. -/
def removeItem (id : String) (st : AppState) : AppState :=
  let st' := { st with items := st.items.filter fun it => it.id != id }
  if st.editingId = some id then clearForm st' else st'

/-- `requestClearAll` (identical in all versions): only opens the modal. -/
def requestClearAll (st : AppState) : AppState :=
  { st with showConfirm := true }

/-- `respondClearAll(yes)` (identical in all versions): closes the modal;
only an affirmative answer empties the list and resets the form. -/
def respondClearAll (yes : Bool) (st : AppState) : AppState :=
  let st' := { st with showConfirm := false }
  if yes then clearForm { st' with items := [] } else st'

namespace V11

/-- `validateForPanel` of src/src/App.jsx (v11): the five independent
checks, collected in source order. -/
def validateForPanel (name qtyStr amountStr : String) : List String :=
  (if jsTrim name = "" then ["Item name is required."] else []) ++
  (if jsTrim qtyStr = "" then ["Qty is required."] else []) ++
  (if jsTrim amountStr = "" then ["Amount is required."] else []) ++
  (if parseIntSafe qtyStr ≤ 0 then ["Qty must be ≥ 1."] else []) ++
  (if parseFloatSafe amountStr < 0 then ["Amount must be ≥ 0."] else [])

/-- `safeDivide(amount, qty)` of v11.  `num` is the identity on the finite
rationals that reach it, and `!q` tests `q === 0` (the arguments are
outputs of `parseIntSafe` / `parseFloatSafe`, never `NaN`). -/
def safeDivide (amount qty : ℚ) : ℚ :=
  if qty = 0 then 0 else amount / qty

/-- `addOrSave` of v11.  The Amount field is interpreted as the *line
amount*: the stored unit price is `safeDivide(amount, qty)`.  The id of a
newly appended item comes from the impure `uid()`; it is passed in as the
`newId` argument.  (`Number(unitPrice)` in the source is the identity on a
number.) -/
def addOrSave (newId : String) (st : AppState) : AppState :=
  let errs := validateForPanel st.name st.qtyStr st.amountStr
  if errs = [] then
    let qty := parseIntSafe st.qtyStr
    let amount := parseFloatSafe st.amountStr
    let unitPrice := safeDivide amount qty
    let items' :=
      if isTruthy st.editingId then
        st.items.map fun it =>
          if some it.id = st.editingId then
            { it with name := jsTrim st.name
                      qty := some (JsNum.fin qty)
                      unitPrice := some (JsNum.fin unitPrice) }
          else it
      else
        st.items ++ [{ id := newId, name := jsTrim st.name
                       qty := some (JsNum.fin qty)
                       unitPrice := some (JsNum.fin unitPrice) }]
    clearForm { st with items := items', errors := errs }
  else
    { st with errors := errs }

end V11

namespace V14

/-- `validateForPanel` of src/unnamed/part_001 (v14) and
src/unnamed/part_000 (v17): same checks as v11, with the two Amount
messages reading "(unit price)". -/
def validateForPanel (name qtyStr amountStr : String) : List String :=
  (if jsTrim name = "" then ["Item name is required."] else []) ++
  (if jsTrim qtyStr = "" then ["Qty is required."] else []) ++
  (if jsTrim amountStr = "" then ["Amount (unit price) is required."] else []) ++
  (if parseIntSafe qtyStr ≤ 0 then ["Qty must be ≥ 1."] else []) ++
  (if parseFloatSafe amountStr < 0 then ["Amount (unit price) must be ≥ 0."] else [])

/-- `addOrSave` of v14/v17.  The Amount field is stored directly as the
unit price (`const unitPrice = parseFloatSafe(amountStr)` — no division by
the quantity).  As in `V11.addOrSave`, the fresh id produced by `uid()` is
passed in as `newId`. -/
def addOrSave (newId : String) (st : AppState) : AppState :=
  let errs := validateForPanel st.name st.qtyStr st.amountStr
  if errs = [] then
    let qty := parseIntSafe st.qtyStr
    let unitPrice := parseFloatSafe st.amountStr
    let items' :=
      if isTruthy st.editingId then
        st.items.map fun it =>
          if some it.id = st.editingId then
            { it with name := jsTrim st.name
                      qty := some (JsNum.fin qty)
                      unitPrice := some (JsNum.fin unitPrice) }
          else it
      else
        st.items ++ [{ id := newId, name := jsTrim st.name
                       qty := some (JsNum.fin qty)
                       unitPrice := some (JsNum.fin unitPrice) }]
    clearForm { st with items := items', errors := errs }
  else
    { st with errors := errs }

/-- `onRowClick(it)` of v14/v17: enters edit mode for the clicked item and
fills the buffers.  `String(num(it.qty) || "")` evaluates to `""` when the
coerced number is `0` (the only falsy value `num` can produce) and to the
decimal rendering of the number otherwise; the Amount buffer receives the
*unit price* (v11 instead shows `num(it.qty) * num(it.unitPrice)` there).
The trailing `scrollIntoView` / `focus` calls are presentation effects. -/
def onRowClick (it : LineItem) (st : AppState) : AppState :=
  { st with editingId := some it.id
            name := it.name
            qtyStr := if num it.qty = 0 then "" else jsNumToString (num it.qty)
            amountStr := if num it.unitPrice = 0 then "" else jsNumToString (num it.unitPrice) }

end V14

/-- A JavaScript value as produced by `JSON.parse`. -/
inductive JsValue where
  | null
  | bool (b : Bool)
  | numv (q : ℚ)
  | str (s : String)
  | arr (elems : List JsValue)
  | obj (fields : List (String × JsValue))
deriving Repr

/-- JSON whitespace: space, tab, line feed, carriage return. -/
def skipJsonWs (l : List Char) : List Char :=
  l.dropWhile fun c => c == ' ' || c == '\t' || c == '\n' || c == '\r'

/-- Body of a JSON string after the opening quote: plain characters up to
the closing quote.  Escape sequences (backslash, code 92) and control
characters lie outside the modelled fragment and are rejected, so every
`ok` answer agrees with the host parser. -/
def parseJsonStringChars : List Char → Except Unit (List Char × List Char)
  | [] => Except.error ()
  | c :: r =>
      if c = '"' then Except.ok ([], r)
      else if c.toNat = 92 ∨ c.toNat < 32 then Except.error ()
      else (parseJsonStringChars r).map fun p => (c :: p.1, p.2)

/-- Does the remainder start with an exponent marker? -/
def headIsExp (l : List Char) : Bool :=
  match l with
  | c :: _ => c == 'e' || c == 'E'
  | [] => false

/-- A JSON number: optional minus sign, an integer part without leading
zeros, an optional fraction.  Exponent forms lie outside the modelled
fragment and are rejected (again keeping every `ok` answer faithful to
the host parser). -/
def parseJsonNumber (l : List Char) : Except Unit (ℚ × List Char) :=
  let (neg, l1) := match l with
    | '-' :: r => (true, r)
    | _ => (false, l)
  let intPart := l1.takeWhile Char.isDigit
  let r1 := l1.dropWhile Char.isDigit
  if intPart = [] then Except.error ()
  else if 1 < intPart.length ∧ intPart.head? = some '0' then Except.error ()
  else
    let signed : ℚ → ℚ := fun q => if neg then -q else q
    match r1 with
    | '.' :: r2 =>
        let frac := r2.takeWhile Char.isDigit
        let r3 := r2.dropWhile Char.isDigit
        if frac = [] then Except.error ()
        else if headIsExp r3 then Except.error ()
        else Except.ok
          (signed ((digitsVal intPart : ℚ) + (digitsVal frac : ℚ) / (10 : ℚ) ^ frac.length), r3)
    | _ =>
        if headIsExp r1 then Except.error ()
        else Except.ok (signed (digitsVal intPart : ℚ), r1)

mutual

/-- One JSON value (keywords, strings, numbers, arrays) together with the
unconsumed remainder.  The `fuel` argument only bounds recursion depth;
`jsonParse` supplies more fuel than any input can use, and running out of
fuel merely produces a (sound) rejection.  Object values lie outside the
modelled fragment and are rejected. -/
def parseJsonVal : Nat → List Char → Except Unit (JsValue × List Char)
  | 0, _ => Except.error ()
  | fuel + 1, l =>
      match skipJsonWs l with
      | 'n' :: 'u' :: 'l' :: 'l' :: r => Except.ok (JsValue.null, r)
      | 't' :: 'r' :: 'u' :: 'e' :: r => Except.ok (JsValue.bool true, r)
      | 'f' :: 'a' :: 'l' :: 's' :: 'e' :: r => Except.ok (JsValue.bool false, r)
      | '"' :: r =>
          (parseJsonStringChars r).map fun p => (JsValue.str (String.mk p.1), p.2)
      | '[' :: r =>
          (match skipJsonWs r with
           | ']' :: r' => Except.ok (JsValue.arr [], r')
           | _ => (parseJsonElems fuel r).map fun p => (JsValue.arr p.1, p.2))
      | l' => (parseJsonNumber l').map fun p => (JsValue.numv p.1, p.2)

/-- Comma-separated JSON array elements up to the closing bracket. -/
def parseJsonElems : Nat → List Char → Except Unit (List JsValue × List Char)
  | 0, _ => Except.error ()
  | fuel + 1, l => do
      let (v, r) ← parseJsonVal fuel l
      match skipJsonWs r with
      | ',' :: r' =>
          let (vs, r'') ← parseJsonElems fuel r'
          Except.ok (v :: vs, r'')
      | ']' :: r' => Except.ok ([v], r')
      | _ => Except.error ()

end

/-- Model of the host `JSON.parse` on the modelled fragment: one value,
then only whitespace.  Whenever this model answers `ok v`, the host
parser answers the same `v`; inputs it rejects are either rejected by the
host parser as well or lie outside the modelled fragment (escapes,
exponents, objects), which no result below exercises. -/
def jsonParse (s : String) : Except Unit JsValue :=
  match parseJsonVal (2 * s.length + 8) s.toList with
  | Except.ok (v, rest) =>
      if skipJsonWs rest = [] then Except.ok v else Except.error ()
  | Except.error _ => Except.error ()

/-- The `useState` initializer of `App` (identical shape in all three
versions), parameterized by the parse function so that the results about
it hold for every behavior of the host `JSON.parse`:

  try { const raw = localStorage.getItem(key); return raw ? JSON.parse(raw) : []; }
  catch { return []; }

`raw` is the stored string or `null`; `null` and `""` are falsy.  A parse
exception is the `error` case of `parse`. -/
def loadItemsWith (parse : String → Except Unit JsValue) (raw : Option String) : JsValue :=
  match raw with
  | none => JsValue.arr []
  | some s =>
      if s = "" then JsValue.arr []
      else
        match parse s with
        | Except.ok v => v
        | Except.error _ => JsValue.arr []

/-- The initializer with the concrete `JSON.parse` model. -/
def loadItems (raw : Option String) : JsValue :=
  loadItemsWith jsonParse raw

/-- User intents of the clear-all confirmation dialogue: pressing the
"Clear all" button, answering NO, answering YES. -/
inductive ModalEvent where
  | request
  | respond (yes : Bool)
deriving DecidableEq, Repr

/-- Dispatch of a confirmation-dialogue intent to the handlers. -/
def modalStep (e : ModalEvent) (st : AppState) : AppState :=
  match e with
  | ModalEvent.request => requestClearAll st
  | ModalEvent.respond yes => respondClearAll yes st

/-- Is `c` one of the two decimal separators `onlyDecimal` tolerates? -/
def isSep (c : Char) : Bool :=
  c == '.' || c == ','

/-- Is `c` kept by the first rewrite of `onlyDecimal`
(`s.replace(/[^0-9\.,]/g, "")` deletes everything else)? -/
def isDecKeep (c : Char) : Bool :=
  c.isDigit || isSep c

/-- `onlyDecimal` (identical in all three versions) on character lists,
clause by clause: the `replace` above is the filter; `s.search(/[.,]/)`
locates the first separator, so when one exists `s.slice(0, firstSep + 1)`
is the separator-free prefix together with that separator (`takeWhile`
plus the head of `dropWhile`), and `s.slice(firstSep + 1)` is the rest,
whose separators `replace(/[.,]/g, "")` deletes. -/
def onlyDecimalL (l : List Char) : List Char :=
  match (l.filter isDecKeep).dropWhile (fun c => !isSep c) with
  | [] => l.filter isDecKeep
  | sep :: tail =>
      (l.filter isDecKeep).takeWhile (fun c => !isSep c)
        ++ sep :: tail.filter (fun c => !isSep c)

/-- `onlyDecimal` from the source, on strings. -/
def onlyDecimal (s : String) : String :=
  String.mk (onlyDecimalL s.toList)

/-- `onlyDigits` from the source (identical in all three versions):
`String(s).replace(/[^\d]/g, "")`. -/
def onlyDigits (s : String) : String :=
  String.mk (s.toList.filter Char.isDigit)

/-- A left fold adding `f` of every element is the sum of the mapped list. -/
theorem foldl_add_map (f : LineItem → ℚ) (l : List LineItem) (a : ℚ) :
    l.foldl (fun s it => s + f it) a = a + (l.map f).sum := by
  induction l generalizing a with
  | nil => simp
  | cons it r ih => simp [List.foldl_cons, ih, add_assoc]

/-- C4: for every list of items — including items with non-finite or
missing numeric fields, which `num` coerces to 0 — `computeTotals` returns
the subtotal `Σ quantity × unitPrice` and the total quantity `Σ quantity`;
on the empty list both components are 0, and the results are rationals of
the model, never NaN or undefined. -/
theorem computeTotals_sum (items : List LineItem) :
    (computeTotals items).subtotal
      = (items.map fun it => num it.qty * num it.unitPrice).sum
    ∧ (computeTotals items).totalQty = (items.map fun it => num it.qty).sum
    ∧ computeTotals [] = { subtotal := 0, totalQty := 0 }
    ∧ num none = 0 ∧ num (some JsNum.nan) = 0
    ∧ num (some JsNum.posInf) = 0 ∧ num (some JsNum.negInf) = 0 := by
  refine ⟨?_, ?_, rfl, rfl, rfl, rfl, rfl⟩ <;>
    simp [computeTotals, foldl_add_map]

/-- Closed instance of `computeTotals_sum`: a NaN quantity contributes 0. -/
theorem computeTotals_sum_witness :
    (computeTotals [{ id := "a", name := "x", qty := some JsNum.nan,
                      unitPrice := some (JsNum.fin 3) }]).subtotal = 0 :=
  (computeTotals_sum [{ id := "a", name := "x", qty := some JsNum.nan,
                        unitPrice := some (JsNum.fin 3) }]).1.trans (by simp [num])

/-- C3: `validate("", "", "")` yields the three required-field messages in
that order (as a sublist of its output, which additionally carries the
quantity-minimum message since the empty quantity parses to 0);
`validate("Book", "0", "5")` yields exactly the quantity-minimum message;
`validate("Book", "2", "-1")` yields exactly the amount-minimum message;
`validate("Book", "2", "5")` yields no message. -/
theorem validateForPanel_examples :
    List.Sublist ["Item name is required.", "Qty is required.", "Amount is required."]
      (V11.validateForPanel "" "" "")
    ∧ V11.validateForPanel "Book" "0" "5" = ["Qty must be ≥ 1."]
    ∧ V11.validateForPanel "Book" "2" "-1" = ["Amount must be ≥ 0."]
    ∧ V11.validateForPanel "Book" "2" "5" = [] := by
  refine ⟨?_, by decide, by decide, by decide⟩
  have h : V11.validateForPanel "" "" ""
      = ["Item name is required.", "Qty is required.", "Amount is required."]
        ++ ["Qty must be ≥ 1."] := by decide
  rw [h]
  exact List.sublist_append_left _ _

/-- C6: when validation of the form buffers produces a non-empty error
list, `addOrSave` (in either variant) changes nothing but the stored error
list: the items — and every other state component — are untouched. -/
theorem invalid_commit_leaves_cart (st : AppState) (newId : String) :
    (V11.validateForPanel st.name st.qtyStr st.amountStr ≠ [] →
      V11.addOrSave newId st
        = { st with errors := V11.validateForPanel st.name st.qtyStr st.amountStr })
    ∧ (V14.validateForPanel st.name st.qtyStr st.amountStr ≠ [] →
      V14.addOrSave newId st
        = { st with errors := V14.validateForPanel st.name st.qtyStr st.amountStr }) := by
  constructor <;> intro h
  · simp [V11.addOrSave, h]
  · simp [V14.addOrSave, h]

/-- Closed instance of `invalid_commit_leaves_cart` at an all-empty form. -/
theorem invalid_commit_leaves_cart_witness :
    V14.addOrSave "z"
      { items := [], name := "", qtyStr := "", amountStr := "", errors := [],
        editingId := none, showConfirm := false }
    = { items := [], name := "", qtyStr := "", amountStr := "",
        errors := V14.validateForPanel "" "" "", editingId := none,
        showConfirm := false } :=
  (invalid_commit_leaves_cart
    { items := [], name := "", qtyStr := "", amountStr := "", errors := [],
      editingId := none, showConfirm := false } "z").2 (by decide)

/-- A confirmation-dialogue intent other than an affirmative answer never
touches the item list. -/
theorem modalStep_preserves_items (e : ModalEvent) (st : AppState)
    (h : e ≠ ModalEvent.respond true) : (modalStep e st).items = st.items := by
  cases e with
  | request => rfl
  | respond yes =>
      cases yes with
      | true => exact absurd rfl h
      | false => rfl

/-- C9: after a clear-all request, any sequence of dialogue intents that
contains no affirmative answer leaves the item list untouched; a negative
answer leaves the items unchanged and dismisses the pending confirmation;
an affirmative answer empties the item list, dismisses the confirmation
and resets the form to add-mode (no editing id, empty buffers). -/
theorem clear_all_requires_confirmation (st : AppState) (evs : List ModalEvent)
    (hno : ModalEvent.respond true ∉ evs) :
    (evs.foldl (fun s e => modalStep e s) st).items = st.items
    ∧ (respondClearAll false st).items = st.items
    ∧ (respondClearAll false st).showConfirm = false
    ∧ (respondClearAll true st).items = []
    ∧ (respondClearAll true st).editingId = none
    ∧ (respondClearAll true st).name = ""
    ∧ (respondClearAll true st).qtyStr = ""
    ∧ (respondClearAll true st).amountStr = ""
    ∧ (respondClearAll true st).showConfirm = false := by
  refine ⟨?_, rfl, rfl, rfl, rfl, rfl, rfl, rfl, rfl⟩
  induction evs generalizing st with
  | nil => rfl
  | cons e r ih =>
      simp only [List.foldl_cons]
      rw [ih (modalStep e st) (fun hm => hno (List.mem_cons_of_mem _ hm))]
      exact modalStep_preserves_items e st
        (fun he => hno (he ▸ List.mem_cons_self _ _))

/-- Closed instance of `clear_all_requires_confirmation`: a request
followed by a negative answer keeps the single item. -/
theorem clear_all_requires_confirmation_witness :
    (([ModalEvent.request, ModalEvent.respond false].foldl
        (fun s e => modalStep e s)
        { items := [{ id := "a", name := "Apple", qty := some (JsNum.fin 1),
                      unitPrice := some (JsNum.fin 2) }],
          name := "", qtyStr := "", amountStr := "", errors := [],
          editingId := none, showConfirm := false }).items)
    = [{ id := "a", name := "Apple", qty := some (JsNum.fin 1),
         unitPrice := some (JsNum.fin 2) }] :=
  (clear_all_requires_confirmation
    { items := [{ id := "a", name := "Apple", qty := some (JsNum.fin 1),
                  unitPrice := some (JsNum.fin 2) }],
      name := "", qtyStr := "", amountStr := "", errors := [],
      editingId := none, showConfirm := false }
    [ModalEvent.request, ModalEvent.respond false] (by decide)).1

/-- C1: starting from an empty cart, committing the form name "Book",
qty "2", amount "5" with the v14/v17 `addOrSave` (the semantics the spec
adopts: the Amount field is stored directly as the unit price, not divided
by the quantity) appends exactly one item named "Book" with quantity 2 and
unit price 5; `computeTotals` then gives subtotal 10, which renders as
"10.0 k VND". -/
theorem addOrSave_book_scenario (newId : String) :
    (V14.addOrSave newId
        { items := [], name := "Book", qtyStr := "2", amountStr := "5",
          errors := [], editingId := none, showConfirm := false }).items
      = [{ id := newId, name := "Book", qty := some (JsNum.fin 2),
           unitPrice := some (JsNum.fin 5) }]
    ∧ (computeTotals [{ id := newId, name := "Book", qty := some (JsNum.fin 2),
                        unitPrice := some (JsNum.fin 5) }]).subtotal = 10
    ∧ fmtKVND (computeTotals [{ id := newId, name := "Book",
                                qty := some (JsNum.fin 2),
                                unitPrice := some (JsNum.fin 5) }]).subtotal
        = "10.0 k VND" := by
  have hv : V14.validateForPanel "Book" "2" "5" = [] := by decide
  have hname : jsTrim "Book" = "Book" := by decide
  have h2 : parseIntSafe "2" = 2 := by decide
  have h5 : parseFloatSafe "5" = 5 := by decide
  have hsub : (computeTotals [{ id := newId, name := "Book",
                                qty := some (JsNum.fin 2),
                                unitPrice := some (JsNum.fin 5) }]).subtotal
      = 10 := by
    simp [computeTotals, num]
    norm_num
  refine ⟨?_, hsub, ?_⟩
  · simp [V14.addOrSave, hv, isTruthy, clearForm, hname, h2, h5]
  · rw [hsub]
    decide

/-- Closed instance of `addOrSave_book_scenario` at a concrete fresh id. -/
theorem addOrSave_book_scenario_witness :
    (V14.addOrSave "id1"
        { items := [], name := "Book", qtyStr := "2", amountStr := "5",
          errors := [], editingId := none, showConfirm := false }).items
      = [{ id := "id1", name := "Book", qty := some (JsNum.fin 2),
           unitPrice := some (JsNum.fin 5) }] :=
  (addOrSave_book_scenario "id1").1

/-- C7: in add mode, with a valid form and a freshly generated id (one no
existing item carries), committing appends a new item and removing that id
restores the prior item list exactly — same order, same values — in both
`addOrSave` variants. -/
theorem add_then_remove_identity (st : AppState) (newId : String)
    (hmode : st.editingId = none)
    (hfresh : ∀ it ∈ st.items, it.id ≠ newId) :
    (V11.validateForPanel st.name st.qtyStr st.amountStr = [] →
      (removeItem newId (V11.addOrSave newId st)).items = st.items)
    ∧ (V14.validateForPanel st.name st.qtyStr st.amountStr = [] →
      (removeItem newId (V14.addOrSave newId st)).items = st.items) := by
  have hfilter : st.items.filter (fun it => it.id != newId) = st.items :=
    List.filter_eq_self.mpr (fun it hit => by simp [bne_iff_ne, hfresh it hit])
  constructor <;> intro hv
  · simp [V11.addOrSave, hv, hmode, isTruthy, removeItem, clearForm,
          List.filter_append, hfilter]
  · simp [V14.addOrSave, hv, hmode, isTruthy, removeItem, clearForm,
          List.filter_append, hfilter]

/-- Closed instance of `add_then_remove_identity`: adding "Book" over a
one-item cart and removing the fresh id restores the cart. -/
theorem add_then_remove_identity_witness :
    (removeItem "fresh" (V14.addOrSave "fresh"
        { items := [{ id := "a", name := "Apple", qty := some (JsNum.fin 1),
                      unitPrice := some (JsNum.fin 2) }],
          name := "Book", qtyStr := "2", amountStr := "5", errors := [],
          editingId := none, showConfirm := false })).items
      = [{ id := "a", name := "Apple", qty := some (JsNum.fin 1),
           unitPrice := some (JsNum.fin 2) }] :=
  (add_then_remove_identity
    { items := [{ id := "a", name := "Apple", qty := some (JsNum.fin 1),
                  unitPrice := some (JsNum.fin 2) }],
      name := "Book", qtyStr := "2", amountStr := "5", errors := [],
      editingId := none, showConfirm := false }
    "fresh" rfl (by decide)).2 (by decide)

/-- C5 (amended): committing an edit of the middle item `B` of a cart
`[A, B, C]` with distinct ids and a valid form yields `[A, B', C]` with
`B'.id = B.id` and `A`, `C` unchanged in value and position — in both
`addOrSave` variants — provided `B`'s id is not the empty string (an
empty-string id is falsy, so the form would fall back to add mode). -/
theorem edit_preserves_identity_position (A B C : LineItem)
    (nm qs as newId : String) (errs0 : List String) (sc : Bool)
    (hAB : A.id ≠ B.id) (hCB : C.id ≠ B.id) (hB : B.id ≠ "") :
    (V11.validateForPanel nm qs as = [] →
      ∃ B', (V11.addOrSave newId
          { items := [A, B, C], name := nm, qtyStr := qs, amountStr := as,
            errors := errs0, editingId := some B.id, showConfirm := sc }).items
        = [A, B', C] ∧ B'.id = B.id)
    ∧ (V14.validateForPanel nm qs as = [] →
      ∃ B', (V14.addOrSave newId
          { items := [A, B, C], name := nm, qtyStr := qs, amountStr := as,
            errors := errs0, editingId := some B.id, showConfirm := sc }).items
        = [A, B', C] ∧ B'.id = B.id) := by
  constructor <;> intro hv
  · refine ⟨{ B with name := jsTrim nm,
                     qty := some (JsNum.fin (parseIntSafe qs)),
                     unitPrice := some (JsNum.fin
                       (V11.safeDivide (parseFloatSafe as) (parseIntSafe qs))) },
      ?_, rfl⟩
    simp [V11.addOrSave, hv, isTruthy, bne_iff_ne, hB, clearForm, hAB, hCB]
  · refine ⟨{ B with name := jsTrim nm,
                     qty := some (JsNum.fin (parseIntSafe qs)),
                     unitPrice := some (JsNum.fin (parseFloatSafe as)) },
      ?_, rfl⟩
    simp [V14.addOrSave, hv, isTruthy, bne_iff_ne, hB, clearForm, hAB, hCB]

/-- Closed instance of `edit_preserves_identity_position` at concrete
items and the form name "Book", qty "2", amount "5". -/
theorem edit_preserves_identity_position_witness :
    ∃ B', (V14.addOrSave "z"
        { items := [{ id := "a", name := "Apples", qty := some (JsNum.fin 1),
                      unitPrice := some (JsNum.fin 2) },
                    { id := "b", name := "Bread", qty := some (JsNum.fin 1),
                      unitPrice := some (JsNum.fin 3) },
                    { id := "c", name := "Corn", qty := some (JsNum.fin 2),
                      unitPrice := some (JsNum.fin 4) }],
          name := "Book", qtyStr := "2", amountStr := "5", errors := [],
          editingId := some "b", showConfirm := false }).items
      = [{ id := "a", name := "Apples", qty := some (JsNum.fin 1),
           unitPrice := some (JsNum.fin 2) }, B',
         { id := "c", name := "Corn", qty := some (JsNum.fin 2),
           unitPrice := some (JsNum.fin 4) }] ∧ B'.id = "b" :=
  (edit_preserves_identity_position
    { id := "a", name := "Apples", qty := some (JsNum.fin 1),
      unitPrice := some (JsNum.fin 2) }
    { id := "b", name := "Bread", qty := some (JsNum.fin 1),
      unitPrice := some (JsNum.fin 3) }
    { id := "c", name := "Corn", qty := some (JsNum.fin 2),
      unitPrice := some (JsNum.fin 4) }
    "Book" "2" "5" "z" [] false
    (by decide) (by decide) (by decide)).2 (by decide)

/-- C5 counterexample: with the middle item's id equal to the empty
string (a legal cart per the data model: ids unique, quantity ≥ 1, price
≥ 0), a valid commit of the pending edit does *not* produce `[A, B', C]` —
the falsy `editingId` sends `addOrSave` down the add branch, appending a
fourth item instead. -/
theorem edit_empty_id_counterexample :
    ¬ ∃ B', (V14.addOrSave "fresh"
        { items := [{ id := "a", name := "Apples", qty := some (JsNum.fin 1),
                      unitPrice := some (JsNum.fin 2) },
                    { id := "", name := "Bread", qty := some (JsNum.fin 1),
                      unitPrice := some (JsNum.fin 3) },
                    { id := "c", name := "Corn", qty := some (JsNum.fin 2),
                      unitPrice := some (JsNum.fin 4) }],
          name := "Bagel", qtyStr := "2", amountStr := "5", errors := [],
          editingId := some "", showConfirm := false }).items
      = [{ id := "a", name := "Apples", qty := some (JsNum.fin 1),
           unitPrice := some (JsNum.fin 2) }, B',
         { id := "c", name := "Corn", qty := some (JsNum.fin 2),
           unitPrice := some (JsNum.fin 4) }] ∧ B'.id = "" := by
  rintro ⟨B', hB', -⟩
  have h4 : (V14.addOrSave "fresh"
      { items := [{ id := "a", name := "Apples", qty := some (JsNum.fin 1),
                    unitPrice := some (JsNum.fin 2) },
                  { id := "", name := "Bread", qty := some (JsNum.fin 1),
                    unitPrice := some (JsNum.fin 3) },
                  { id := "c", name := "Corn", qty := some (JsNum.fin 2),
                    unitPrice := some (JsNum.fin 4) }],
        name := "Bagel", qtyStr := "2", amountStr := "5", errors := [],
        editingId := some "", showConfirm := false }).items.length = 4 := by
    decide
  rw [hB'] at h4
  simp at h4

/-- C8 (amended): for any state and any item of the cart, `onRowClick`
(v14/v17) sets `editingId` to that item's id and fills the name buffer
with its name; the Qty and Amount buffers receive the decimal renderings
of the coerced quantity and of the *unit price* (not the line amount),
except that a value whose coercion is 0 — zero, non-finite or missing —
yields an empty buffer instead. -/
theorem beginEdit_populates_buffers (st : AppState) (it : LineItem)
    (_hmem : it ∈ st.items) :
    (V14.onRowClick it st).editingId = some it.id
    ∧ (V14.onRowClick it st).name = it.name
    ∧ (V14.onRowClick it st).qtyStr
        = (if num it.qty = 0 then "" else jsNumToString (num it.qty))
    ∧ (V14.onRowClick it st).amountStr
        = (if num it.unitPrice = 0 then "" else jsNumToString (num it.unitPrice)) :=
  ⟨rfl, rfl, rfl, rfl⟩

/-- Closed instance of `beginEdit_populates_buffers`: clicking the row of
item "Book" (qty 2, unit price 5) fills the buffers "2" and "5". -/
theorem beginEdit_populates_buffers_witness :
    (V14.onRowClick
        { id := "b", name := "Book", qty := some (JsNum.fin 2),
          unitPrice := some (JsNum.fin 5) }
        { items := [{ id := "b", name := "Book", qty := some (JsNum.fin 2),
                      unitPrice := some (JsNum.fin 5) }],
          name := "", qtyStr := "", amountStr := "", errors := [],
          editingId := none, showConfirm := false }).qtyStr = "2"
    ∧ (V14.onRowClick
        { id := "b", name := "Book", qty := some (JsNum.fin 2),
          unitPrice := some (JsNum.fin 5) }
        { items := [{ id := "b", name := "Book", qty := some (JsNum.fin 2),
                      unitPrice := some (JsNum.fin 5) }],
          name := "", qtyStr := "", amountStr := "", errors := [],
          editingId := none, showConfirm := false }).amountStr = "5" := by
  have h := beginEdit_populates_buffers
    { items := [{ id := "b", name := "Book", qty := some (JsNum.fin 2),
                  unitPrice := some (JsNum.fin 5) }],
      name := "", qtyStr := "", amountStr := "", errors := [],
      editingId := none, showConfirm := false }
    { id := "b", name := "Book", qty := some (JsNum.fin 2),
      unitPrice := some (JsNum.fin 5) }
    (by decide)
  exact ⟨h.2.2.1.trans (by decide), h.2.2.2.trans (by decide)⟩

/-- C8 counterexample: an item with unit price 0 is legal (validation
accepts Amount "0", and the invariant only asks for a price ≥ 0), yet
clicking its row leaves the Amount buffer *empty* — the buffer does not
receive the item's unit price, whose rendering is "0". -/
theorem beginEdit_zero_price_counterexample :
    (V14.onRowClick
        { id := "a", name := "Gift", qty := some (JsNum.fin 1),
          unitPrice := some (JsNum.fin 0) }
        { items := [{ id := "a", name := "Gift", qty := some (JsNum.fin 1),
                      unitPrice := some (JsNum.fin 0) }],
          name := "", qtyStr := "", amountStr := "", errors := [],
          editingId := none, showConfirm := false }).amountStr = ""
    ∧ jsNumToString (num (some (JsNum.fin 0))) = "0"
    ∧ ("" : String) ≠ "0"
    ∧ V14.validateForPanel "Gift" "1" "0" = [] := by
  refine ⟨by decide, by decide, by decide, by decide⟩

/-- C2 (amended): for every behavior of the host parse function, the
storage initializer yields the empty list when the stored value is absent,
empty, or fails to parse — and it is a total function, never an
exception. -/
theorem load_absent_or_unparsable_empty (parse : String → Except Unit JsValue) :
    loadItemsWith parse none = JsValue.arr []
    ∧ loadItemsWith parse (some "") = JsValue.arr []
    ∧ ∀ s, parse s = Except.error () → loadItemsWith parse (some s) = JsValue.arr [] := by
  refine ⟨rfl, rfl, fun s hs => ?_⟩
  by_cases h : s = ""
  · simp [loadItemsWith, h]
  · simp [loadItemsWith, h, hs]

/-- Closed instance of `load_absent_or_unparsable_empty` with the concrete
`JSON.parse` model on a string that is not valid serialized data. -/
theorem load_absent_or_unparsable_empty_witness :
    loadItemsWith jsonParse (some "oops") = JsValue.arr [] :=
  (load_absent_or_unparsable_empty jsonParse).2.2 "oops" rfl

/-- C2 counterexample: the stored string "true" is valid JSON but not a
list of items; `JSON.parse` succeeds on it, and the initializer returns
the parsed value `true` itself — not an empty cart. -/
theorem load_nonlist_counterexample :
    jsonParse "true" = Except.ok (JsValue.bool true)
    ∧ loadItems (some "true") = JsValue.bool true
    ∧ loadItems (some "true") ≠ JsValue.arr [] :=
  ⟨rfl, rfl, fun h => nomatch h⟩

/-- `find?` is the head of what `dropWhile` of the negated predicate keeps. -/
theorem find?_eq_head?_dropWhileNot (p : Char → Bool) (l : List Char) :
    l.find? p = (l.dropWhile (fun c => !p c)).head? := by
  induction l with
  | nil => rfl
  | cons c r ih =>
      cases hp : p c with
      | true => simp [List.find?, List.dropWhile, hp]
      | false => simp [List.find?, List.dropWhile, hp, ih]

/-- Prepending elements that all fail the predicate does not change `find?`. -/
theorem find?_append_of_none (p : Char → Bool) (l₁ l₂ : List Char)
    (h : ∀ c ∈ l₁, p c = false) :
    (l₁ ++ l₂).find? p = l₂.find? p := by
  induction l₁ with
  | nil => rfl
  | cons c r ih =>
      have hc := h c (List.mem_cons_self c r)
      simp only [List.cons_append, List.find?, hc]
      exact ih (fun x hx => h x (List.mem_cons_of_mem _ hx))

/-- Filtering by a predicate implied by the search predicate does not
change `find?`. -/
theorem find?_filter_of_imp (p keep : Char → Bool) (l : List Char)
    (h : ∀ c, p c = true → keep c = true) :
    (l.filter keep).find? p = l.find? p := by
  induction l with
  | nil => rfl
  | cons c r ih =>
      cases hk : keep c with
      | true =>
          cases hp : p c with
          | true => simp [List.filter_cons, hk, List.find?, hp]
          | false => simp [List.filter_cons, hk, List.find?, hp, ih]
      | false =>
          have hp : p c = false := by
            cases hpc : p c with
            | true => exact absurd (h c hpc) (by simp [hk])
            | false => rfl
          simp [List.filter_cons, hk, List.find?, hp, ih]

/-- `takeWhile` walks through a prefix whose elements all satisfy `p`. -/
theorem takeWhile_append_of_all (p : Char → Bool) (l₁ l₂ : List Char)
    (h : ∀ c ∈ l₁, p c = true) :
    (l₁ ++ l₂).takeWhile p = l₁ ++ l₂.takeWhile p := by
  induction l₁ with
  | nil => rfl
  | cons c r ih =>
      have hc := h c (List.mem_cons_self c r)
      simp only [List.cons_append, List.takeWhile, hc]
      exact congrArg (List.cons c) (ih (fun x hx => h x (List.mem_cons_of_mem _ hx)))

/-- `dropWhile` skips a prefix whose elements all satisfy `p`. -/
theorem dropWhile_append_of_all (p : Char → Bool) (l₁ l₂ : List Char)
    (h : ∀ c ∈ l₁, p c = true) :
    (l₁ ++ l₂).dropWhile p = l₂.dropWhile p := by
  induction l₁ with
  | nil => rfl
  | cons c r ih =>
      have hc := h c (List.mem_cons_self c r)
      simp only [List.cons_append, List.dropWhile, hc]
      exact ih (fun x hx => h x (List.mem_cons_of_mem _ hx))

/-- The first element surviving `dropWhile` fails the predicate. -/
theorem dropWhile_head_false (p : Char → Bool) (l : List Char) (a : Char)
    (t : List Char) (h : l.dropWhile p = a :: t) : p a = false := by
  induction l with
  | nil => simp [List.dropWhile] at h
  | cons c r ih =>
      cases hc : p c with
      | true =>
          rw [List.dropWhile] at h
          rw [hc] at h
          exact ih h
      | false =>
          rw [List.dropWhile] at h
          rw [hc] at h
          obtain ⟨rfl, -⟩ := List.cons.injEq .. ▸ h
          exact hc

/-- `onlyDecimalL` when the kept characters carry no separator. -/
theorem onlyDecimalL_of_dropWhile_nil (l : List Char)
    (h : (l.filter isDecKeep).dropWhile (fun c => !isSep c) = []) :
    onlyDecimalL l = l.filter isDecKeep := by
  simp only [onlyDecimalL, h]

/-- `onlyDecimalL` when the kept characters carry a first separator. -/
theorem onlyDecimalL_of_dropWhile_cons (l : List Char) (sep : Char) (tail : List Char)
    (h : (l.filter isDecKeep).dropWhile (fun c => !isSep c) = sep :: tail) :
    onlyDecimalL l = (l.filter isDecKeep).takeWhile (fun c => !isSep c)
      ++ sep :: tail.filter (fun c => !isSep c) := by
  simp only [onlyDecimalL, h]

/-- Core facts about `onlyDecimalL`: every output character is kept
(digit or separator), at most one separator survives, the separator kept
is the first one of the input, and the function is idempotent. -/
theorem onlyDecimalL_spec (l : List Char) :
    (∀ c ∈ onlyDecimalL l, isDecKeep c = true)
    ∧ (onlyDecimalL l).countP isSep ≤ 1
    ∧ (∀ c, l.find? isSep = some c → (onlyDecimalL l).find? isSep = some c)
    ∧ onlyDecimalL (onlyDecimalL l) = onlyDecimalL l := by
  have hkeep : ∀ c, isSep c = true → isDecKeep c = true := by
    intro c hc
    simp [isDecKeep, hc]
  have hfind : l.find? isSep = (l.filter isDecKeep).find? isSep :=
    (find?_filter_of_imp isSep isDecKeep l hkeep).symm
  cases hd : (l.filter isDecKeep).dropWhile (fun c => !isSep c) with
  | nil =>
      have hod := onlyDecimalL_of_dropWhile_nil l hd
      refine ⟨?_, ?_, ?_, ?_⟩
      · intro c hc
        exact List.of_mem_filter (hod ▸ hc)
      · rw [hod]
        have h0 : (l.filter isDecKeep).countP isSep = 0 :=
          List.countP_eq_zero.mpr (by
            intro a ha
            have := List.dropWhile_eq_nil_iff.mp hd a ha
            simpa using this)
        omega
      · intro c hc
        rw [hfind, find?_eq_head?_dropWhileNot, hd] at hc
        simp at hc
      · rw [hod]
        have hfilter : (l.filter isDecKeep).filter isDecKeep = l.filter isDecKeep :=
          List.filter_eq_self.mpr (fun a ha => List.of_mem_filter ha)
        rw [onlyDecimalL_of_dropWhile_nil (l.filter isDecKeep) (by rw [hfilter, hd]),
            hfilter]
  | cons sep tail =>
      have hod := onlyDecimalL_of_dropWhile_cons l sep tail hd
      have hsep : isSep sep = true := by
        have := dropWhile_head_false (fun c => !isSep c) (l.filter isDecKeep) sep tail hd
        simpa using this
      have hsplit : (l.filter isDecKeep).takeWhile (fun c => !isSep c) ++ sep :: tail
          = l.filter isDecKeep := by
        rw [← hd]
        exact List.takeWhile_append_dropWhile _ _
      have hheadfalse :
          ∀ c ∈ (l.filter isDecKeep).takeWhile (fun c => !isSep c), isSep c = false := by
        intro c hc
        have := List.mem_takeWhile_imp hc
        simpa using this
      have htail : ∀ c ∈ tail.filter (fun c => !isSep c), isSep c = false := by
        intro c hc
        have := List.of_mem_filter hc
        simpa using this
      have hmem : ∀ c ∈ onlyDecimalL l, c ∈ l.filter isDecKeep := by
        intro c hc
        rw [hod] at hc
        rcases List.mem_append.mp hc with h1 | h2
        · exact hsplit ▸ List.mem_append.mpr (Or.inl h1)
        · rcases List.mem_cons.mp h2 with h3 | h4
          · exact hsplit ▸ List.mem_append.mpr (Or.inr (h3 ▸ List.mem_cons_self _ _))
          · exact hsplit ▸ List.mem_append.mpr
              (Or.inr (List.mem_cons_of_mem _ (List.mem_of_mem_filter h4)))
      refine ⟨?_, ?_, ?_, ?_⟩
      · intro c hc
        exact List.of_mem_filter (hmem c hc)
      · rw [hod, List.countP_append]
        have h1 : ((l.filter isDecKeep).takeWhile (fun c => !isSep c)).countP isSep = 0 :=
          List.countP_eq_zero.mpr (fun a ha => by simp [hheadfalse a ha])
        have h2 : (tail.filter (fun c => !isSep c)).countP isSep = 0 :=
          List.countP_eq_zero.mpr (fun a ha => by simp [htail a ha])
        rw [h1, List.countP_cons, h2]
        simp [hsep]
      · intro c hc
        rw [hfind, find?_eq_head?_dropWhileNot, hd] at hc
        simp only [List.head?] at hc
        rw [hod, find?_append_of_none isSep _ _ hheadfalse]
        simpa [List.find?, hsep] using hc
      · have hfilterEq : (onlyDecimalL l).filter isDecKeep = onlyDecimalL l :=
          List.filter_eq_self.mpr (fun a ha => List.of_mem_filter (hmem a ha))
        have hdrop2 : ((onlyDecimalL l).filter isDecKeep).dropWhile (fun c => !isSep c)
            = sep :: tail.filter (fun c => !isSep c) := by
          rw [hfilterEq, hod,
              dropWhile_append_of_all _ _ _ (fun c hc => by simp [hheadfalse c hc])]
          simp [List.dropWhile, hsep]
        rw [onlyDecimalL_of_dropWhile_cons (onlyDecimalL l) sep
              (tail.filter (fun c => !isSep c)) hdrop2,
            hfilterEq, hod,
            takeWhile_append_of_all _ _ _ (fun c hc => by simp [hheadfalse c hc])]
        have hfilter2 : (tail.filter (fun c => !isSep c)).filter (fun c => !isSep c)
            = tail.filter (fun c => !isSep c) :=
          List.filter_eq_self.mpr (fun a ha => by simp [htail a ha])
        simp [List.takeWhile, hsep, hfilter2]

/-- C10: for every input string, the decimal-input sanitizer
`onlyDecimal` returns only digits and at most one decimal separator
('.' or ','), keeps the first separator of the input and drops all later
ones, and is idempotent. -/
theorem onlyDecimal_sanitizer (s : String) :
    (∀ c ∈ (onlyDecimal s).toList, c.isDigit = true ∨ c = '.' ∨ c = ',')
    ∧ (onlyDecimal s).toList.countP isSep ≤ 1
    ∧ (∀ c, s.toList.find? isSep = some c →
        (onlyDecimal s).toList.find? isSep = some c)
    ∧ onlyDecimal (onlyDecimal s) = onlyDecimal s := by
  have h := onlyDecimalL_spec s.toList
  have htl : (onlyDecimal s).toList = onlyDecimalL s.toList := rfl
  refine ⟨?_, ?_, ?_, ?_⟩
  · intro c hc
    have hk := h.1 c (htl ▸ hc)
    simpa [isDecKeep, isSep, Bool.or_eq_true] using hk
  · exact htl ▸ h.2.1
  · intro c hc
    exact htl ▸ h.2.2.1 c hc
  · show String.mk (onlyDecimalL (onlyDecimal s).toList)
        = String.mk (onlyDecimalL s.toList)
    rw [htl, h.2.2.2]

/-- Closed instance of `onlyDecimal_sanitizer` on "a1.b2,c3": the output
keeps the '.' (the first separator) and the sanitizer is idempotent on
its own output. -/
theorem onlyDecimal_sanitizer_witness :
    onlyDecimal (onlyDecimal "a1.b2,c3") = onlyDecimal "a1.b2,c3"
    ∧ (onlyDecimal "a1.b2,c3").toList.find? isSep = some '.' :=
  ⟨(onlyDecimal_sanitizer "a1.b2,c3").2.2.2,
   (onlyDecimal_sanitizer "a1.b2,c3").2.2.1 '.' (by decide)⟩
